import Mathlib

/-!
Verification of the session-scoped conversation-history store and the
user validation/mapping pipeline of the mvk_prompts_fast_api repository.

The conversation store is embedded from
`State/003_Fast_01_InMemoeryCMH/app/api/api_state/api_buffer_memory.py`:
a process-global dict `store` mapping session ids to chat histories, with

    store = {}
    def get_session_history(session_id:str):
        if session_id not in store:
            store[session_id] = InMemoryChatMessageHistory()
        return store[session_id]

The dict is modelled as an association list with unique keys reachable
from the empty store; `store[k] = v` updates in place or adds the key,
`k in store` is a membership test, `store[k]` is a lookup.  A transcript
is the ordered message list held by an `InMemoryChatMessageHistory`.
-/

/-- Message roles, per the data model: `{role: Enum\x7bsystem,user,assistant\x7d}`. -/
inductive Role where
  | system
  | user
  | assistant
deriving DecidableEq, Repr

/-- One message record `\x7brole, content\x7d` of a transcript. -/
structure Message where
  role : Role
  content : String
deriving DecidableEq, Repr

/-- A transcript: the ordered message list of one session. -/
abbrev Transcript := List Message

/-- The process-global `store` dict, as an association list keyed by session id. -/
abbrev Store := List (String × Transcript)

/-- Dict lookup `store[key]`, `none` when the key is absent (a KeyError in Python). -/
def Store.find? : Store → String → Option Transcript
  | [], _ => none
  | (k, v) :: rest, key => if k = key then some v else Store.find? rest key

/-- Dict assignment `store[key] = val`: overwrite the existing binding or add the key. -/
def Store.insert : Store → String → Transcript → Store
  | [], key, val => [(key, val)]
  | (k, v) :: rest, key, val =>
      if k = key then (k, val) :: rest else (k, v) :: Store.insert rest key val

@[simp]
theorem Store.find?_insert_self (st : Store) (k : String) (v : Transcript) :
    Store.find? (Store.insert st k v) k = some v := by
  induction st with
  | nil => simp [Store.insert, Store.find?]
  | cons hd tl ih =>
      obtain ⟨k1, v1⟩ := hd
      by_cases h : k1 = k
      · simp [Store.insert, Store.find?, h]
      · simp [Store.insert, Store.find?, h, ih]

theorem Store.find?_insert_ne (st : Store) (k k2 : String) (v : Transcript)
    (h : k ≠ k2) : Store.find? (Store.insert st k v) k2 = Store.find? st k2 := by
  induction st with
  | nil => simp [Store.insert, Store.find?, h]
  | cons hd tl ih =>
      obtain ⟨k1, v1⟩ := hd
      by_cases h1 : k1 = k
      · subst h1
        simp [Store.insert, Store.find?, h]
      · simp [Store.insert, Store.find?, h1, ih]

/-- The lookup-or-create operation `get_session_history` of
`api_buffer_memory.py`: if the session id is absent it stores a fresh
empty history; either way it returns `store[session_id]` together with
the updated store. -/
def get_session_history (session_id : String) (st : Store) : Transcript × Store :=
  let st1 := if (Store.find? st session_id).isSome then st
             else Store.insert st session_id []
  ((Store.find? st1 session_id).getD [], st1)

/-- The same operation with the final dict access `store[session_id]`
kept fallible, exactly as in Python where an absent key raises KeyError:
`none` is the KeyError path. -/
def get_session_historyE (session_id : String) (st : Store) :
    Option (Transcript × Store) :=
  let st1 := if (Store.find? st session_id).isSome then st
             else Store.insert st session_id []
  match Store.find? st1 session_id with
  | some t => some (t, st1)
  | none => none

/-- Modelled from the spec: `append(session_id, role, content)` is the
convenience wrapper that fetches (or creates) the transcript and appends
a message record at the end.  The source file exposes only
`get_session_history`; appending happens through the mutable history
object it returns, so the wrapper itself is absent from the sources. -/
def append (session_id : String) (role : Role) (content : String)
    (st : Store) : Store :=
  let p := get_session_history session_id st
  Store.insert p.2 session_id (p.1 ++ [⟨role, content⟩])

/-- Modelled from the spec: the fallible form of `append`, propagating a
KeyError from the inner `get_session_history` dict access. -/
def appendE (session_id : String) (role : Role) (content : String)
    (st : Store) : Option Store :=
  match get_session_historyE session_id st with
  | none => none
  | some (t, st1) => some (Store.insert st1 session_id (t ++ [⟨role, content⟩]))

theorem get_session_history_of_found (session_id : String) (st : Store)
    (t : Transcript) (h : Store.find? st session_id = some t) :
    get_session_history session_id st = (t, st) := by
  simp [get_session_history, h]

theorem get_session_history_of_missing (session_id : String) (st : Store)
    (h : Store.find? st session_id = none) :
    get_session_history session_id st = ([], Store.insert st session_id []) := by
  simp [get_session_history, h]

theorem get_session_history_fst (session_id : String) (st : Store) :
    (get_session_history session_id st).1 = (Store.find? st session_id).getD [] := by
  cases h : Store.find? st session_id with
  | none => simp [get_session_history, h]
  | some t => simp [get_session_history, h]

theorem get_session_history_snd_find (session_id : String) (st : Store) :
    Store.find? (get_session_history session_id st).2 session_id =
      some (get_session_history session_id st).1 := by
  cases h : Store.find? st session_id with
  | none => simp [get_session_history, h]
  | some t => simp [get_session_history, h]

theorem find?_get_snd_of_found (s k : String) (st : Store) (t : Transcript)
    (h : Store.find? st k = some t) :
    Store.find? (get_session_history s st).2 k = some t := by
  cases hf : Store.find? st s with
  | some t1 => simpa [get_session_history, hf] using h
  | none =>
      have hne : s ≠ k := by
        intro he
        subst he
        rw [hf] at h
        exact Option.noConfusion h
      simp [get_session_history, hf, Store.find?_insert_ne _ _ _ _ hne, h]

theorem find?_append_self (s : String) (role : Role) (content : String) (st : Store) :
    Store.find? (append s role content st) s =
      some ((get_session_history s st).1 ++ [⟨role, content⟩]) := by
  simp [append]

theorem find?_append_extends (s k : String) (role : Role) (content : String)
    (st : Store) (t : Transcript) (h : Store.find? st k = some t) :
    ∃ t2, Store.find? (append s role content st) k = some t2 ∧ t <+: t2 := by
  by_cases he : s = k
  · subst he
    have h1 : (get_session_history s st).1 = t := by
      simp [get_session_history_fst, h]
    refine ⟨t ++ [⟨role, content⟩], ?_, List.prefix_append t _⟩
    rw [find?_append_self, h1]
  · refine ⟨t, ?_, List.prefix_refl t⟩
    have h2 := find?_get_snd_of_found s k st t h
    simp [append, Store.find?_insert_ne _ _ _ _ he, h2]

/-- The operations a request handler can perform on the store: a
lookup-or-create, or an append through the fetched history. -/
inductive Op where
  | fetch (session_id : String)
  | add (session_id : String) (role : Role) (content : String)

/-- Effect of one operation on the store. -/
def applyOp : Op → Store → Store
  | Op.fetch s, st => (get_session_history s st).2
  | Op.add s role content, st => append s role content st

/-- Effect of a sequence of operations on the store. -/
def runOps : List Op → Store → Store
  | [], st => st
  | op :: rest, st => runOps rest (applyOp op st)

theorem applyOp_extends (op : Op) (st : Store) (k : String) (t : Transcript)
    (h : Store.find? st k = some t) :
    ∃ t2, Store.find? (applyOp op st) k = some t2 ∧ t <+: t2 := by
  cases op with
  | fetch s => exact ⟨t, find?_get_snd_of_found s k st t h, List.prefix_refl t⟩
  | add s role content => exact find?_append_extends s k role content st t h

/-- C1: `get_or_create(session_id)`, implemented by `get_session_history`,
returns the transcript already stored under the id when present, and
otherwise inserts a fresh empty transcript under the id and returns it;
it is defined for every string input. -/
theorem get_session_history_lookup_or_create (session_id : String) (st : Store) :
    (∀ t, Store.find? st session_id = some t →
        get_session_history session_id st = (t, st)) ∧
    (Store.find? st session_id = none →
        get_session_history session_id st = ([], Store.insert st session_id []) ∧
        Store.find? (Store.insert st session_id []) session_id = some []) := by
  constructor
  · intro t h
    exact get_session_history_of_found session_id st t h
  · intro h
    exact ⟨get_session_history_of_missing session_id st h,
           Store.find?_insert_self st session_id []⟩

theorem get_session_history_lookup_or_create_witness :
    get_session_history "a" [("a", [⟨Role.user, "hi"⟩])] =
      ([⟨Role.user, "hi"⟩], [("a", [⟨Role.user, "hi"⟩])]) ∧
    get_session_history "b" [] = ([], [("b", [])]) :=
  ⟨(get_session_history_lookup_or_create "a" _).1 _ (by decide),
   ((get_session_history_lookup_or_create "b" []).2 (by decide)).1⟩

/-- C2: on a store not containing the session id, the first call returns
an empty transcript; the second call on the resulting store returns
exactly the transcript stored under the id and leaves the store
unchanged. -/
theorem get_session_history_first_then_stable (session_id : String) (st : Store)
    (h : Store.find? st session_id = none) :
    (get_session_history session_id st).1 = [] ∧
    Store.find? (get_session_history session_id st).2 session_id =
      some (get_session_history session_id st).1 ∧
    get_session_history session_id (get_session_history session_id st).2 =
      ((get_session_history session_id st).1,
       (get_session_history session_id st).2) := by
  refine ⟨?_, get_session_history_snd_find session_id st, ?_⟩
  · simp [get_session_history_fst, h]
  · exact get_session_history_of_found session_id _ _
      (get_session_history_snd_find session_id st)

theorem get_session_history_first_then_stable_witness :
    (get_session_history "s" []).1 = [] ∧
    Store.find? (get_session_history "s" []).2 "s" =
      some (get_session_history "s" []).1 ∧
    get_session_history "s" (get_session_history "s" []).2 =
      ((get_session_history "s" []).1, (get_session_history "s" []).2) :=
  get_session_history_first_then_stable "s" [] (by decide)

/-- C3: `append(s, role, content)` followed by `get_or_create(s)` yields
the old transcript extended by the record `\x7brole, content\x7d`: its last
element is that record and its length grew by exactly one. -/
theorem append_then_get_last_and_length (session_id : String) (role : Role)
    (content : String) (st : Store) :
    (get_session_history session_id (append session_id role content st)).1 =
      (get_session_history session_id st).1 ++ [⟨role, content⟩] ∧
    List.getLast? (get_session_history session_id
        (append session_id role content st)).1 = some ⟨role, content⟩ ∧
    List.length (get_session_history session_id
        (append session_id role content st)).1 =
      List.length (get_session_history session_id st).1 + 1 := by
  have h2 : (get_session_history session_id (append session_id role content st)).1 =
      (get_session_history session_id st).1 ++ [⟨role, content⟩] := by
    rw [get_session_history_fst, find?_append_self]
    rfl
  refine ⟨h2, ?_, ?_⟩
  · rw [h2]
    simp
  · rw [h2]
    simp

/-- C4: two distinct session ids never share a transcript: neither a
lookup-or-create nor an append on one id changes what is stored under
the other. -/
theorem distinct_sessions_do_not_share (s1 s2 : String) (role : Role)
    (content : String) (st : Store) (h : s1 ≠ s2) :
    Store.find? (get_session_history s1 st).2 s2 = Store.find? st s2 ∧
    Store.find? (append s1 role content st) s2 = Store.find? st s2 := by
  have hget : Store.find? (get_session_history s1 st).2 s2 = Store.find? st s2 := by
    cases hf : Store.find? st s1 with
    | some t => simp [get_session_history, hf]
    | none => simp [get_session_history, hf, Store.find?_insert_ne _ _ _ _ h]
  refine ⟨hget, ?_⟩
  rw [append, Store.find?_insert_ne _ _ _ _ h]
  exact hget

theorem distinct_sessions_do_not_share_witness :
    Store.find? (get_session_history "a" [("b", [⟨Role.system, "x"⟩])]).2 "b" =
      Store.find? [("b", [⟨Role.system, "x"⟩])] "b" ∧
    Store.find? (append "a" Role.user "y" [("b", [⟨Role.system, "x"⟩])]) "b" =
      Store.find? [("b", [⟨Role.system, "x"⟩])] "b" :=
  distinct_sessions_do_not_share "a" "b" Role.user "y" _ (by decide)

/-- C5: a session id present in the store stays present under every
operation: a lookup-or-create leaves its binding untouched, and an
append leaves it bound to a transcript extending the previous one. -/
theorem store_binding_persistent (s k : String) (role : Role) (content : String)
    (st : Store) (t : Transcript) (h : Store.find? st k = some t) :
    Store.find? (get_session_history s st).2 k = some t ∧
    ∃ t2, Store.find? (append s role content st) k = some t2 ∧ t <+: t2 :=
  ⟨find?_get_snd_of_found s k st t h,
   find?_append_extends s k role content st t h⟩

theorem store_binding_persistent_witness :
    Store.find? (get_session_history "a" [("k", [⟨Role.user, "m"⟩])]).2 "k" =
      some [⟨Role.user, "m"⟩] ∧
    ∃ t2, Store.find? (append "a" Role.assistant "r" [("k", [⟨Role.user, "m"⟩])]) "k" =
      some t2 ∧ [⟨Role.user, "m"⟩] <+: t2 :=
  store_binding_persistent "a" "k" Role.assistant "r" _ _ (by decide)

/-- C6: transcripts are append-only: across any sequence of
lookup-or-create and append operations, a transcript present in the
store evolves only by extension — the old transcript is a prefix of the
new one after every sequence of operations. -/
theorem transcripts_append_only (ops : List Op) (st : Store) (k : String)
    (t : Transcript) (h : Store.find? st k = some t) :
    ∃ t2, Store.find? (runOps ops st) k = some t2 ∧ t <+: t2 := by
  induction ops generalizing st t with
  | nil => exact ⟨t, h, List.prefix_refl t⟩
  | cons op rest ih =>
      obtain ⟨t1, h1, h2⟩ := applyOp_extends op st k t h
      obtain ⟨t2, h3, h4⟩ := ih (applyOp op st) t1 h1
      exact ⟨t2, h3, h2.trans h4⟩

theorem transcripts_append_only_witness :
    ∃ t2, Store.find? (runOps [Op.add "a" Role.user "x", Op.fetch "a"]
      [("a", [])]) "a" = some t2 ∧ ([] : Transcript) <+: t2 :=
  transcripts_append_only [Op.add "a" Role.user "x", Op.fetch "a"]
    [("a", [])] "a" [] (by decide)

/-- C7: every execution path of the store operations succeeds: the
fallible embeddings, which keep the KeyError branch of each dict access,
always return the value of the total embeddings — the error branch is
unreachable for every store and every string session id. -/
theorem store_ops_never_error (session_id : String) (role : Role)
    (content : String) (st : Store) :
    get_session_historyE session_id st = some (get_session_history session_id st) ∧
    appendE session_id role content st = some (append session_id role content st) := by
  have h1 : ∀ s st1, get_session_historyE s st1 = some (get_session_history s st1) := by
    intro s st1
    cases h : Store.find? st1 s with
    | some t => simp [get_session_historyE, get_session_history, h]
    | none => simp [get_session_historyE, get_session_history, h]
  exact ⟨h1 session_id st, by simp [appendE, append, h1]⟩

/-!
User pipeline.  `UserItem`, `UserRequest`, `UserResponse` and `UserModel`
are the pydantic models of `app/models/user_model.py` (fields `Message`
and `IsInvalid` come from `ItemBase`/`ModelBase` in `common_base.py`,
with defaults `None` and `False`).  `UserEntity` is the SQLAlchemy row
of `app/dal/entities/User.py`: every column may be unset (`None`) on a
freshly constructed entity, so each field is an `Option`.
-/

/-- Pydantic `UserItem`: `ItemBase` fields plus `Id`, `UserId`, `Name`. -/
structure UserItem where
  Message : Option String := none
  IsInvalid : Bool := false
  Id : Int := 0
  UserId : Int := 0
  Name : String := ""
deriving DecidableEq, Repr

/-- Pydantic `UserRequest`: same shape as `UserItem`. -/
structure UserRequest where
  Message : Option String := none
  IsInvalid : Bool := false
  Id : Int := 0
  UserId : Int := 0
  Name : String := ""
deriving DecidableEq, Repr

/-- Pydantic `UserResponse`: same shape as `UserItem`. -/
structure UserResponse where
  Message : Option String := none
  IsInvalid : Bool := false
  Id : Int := 0
  UserId : Int := 0
  Name : String := ""
deriving DecidableEq, Repr

/-- Pydantic `UserModel`: `ModelBase` fields plus the optional `item`,
`response` and `request` submodels, all defaulting to `None`. -/
structure UserModel where
  Message : Option String := none
  IsInvalid : Bool := false
  item : Option UserItem := none
  response : Option UserResponse := none
  request : Option UserRequest := none
deriving DecidableEq, Repr

/-- SQLAlchemy `UserEntity` row: `Id`, nullable `UserId` and `Name`;
on a bare `UserEntity()` every column is unset. -/
structure UserEntity where
  Id : Option Int := none
  UserId : Option Int := none
  Name : Option String := none
deriving DecidableEq, Repr

/-- `MapUser.UserItemToEntity` of `map_user.py`: field-by-field copy of
`Id`, `UserId`, `Name` into a fresh entity. -/
def MapUser.UserItemToEntity (source : UserItem) : UserEntity :=
  { Id := some source.Id, UserId := some source.UserId, Name := some source.Name }

/-- `MapUser.UserEntityToItem` of `map_user.py`: copies `Id`, `Name`,
`UserId` into a fresh pydantic `UserItem`, whose validation rejects a
`None` column value (`Id:int`, `Name:str`, `UserId:int` with
`validate_assignment`); that rejection is the `none` branch. -/
def MapUser.UserEntityToItem (source : UserEntity) : Option UserItem :=
  match source.Id, source.Name, source.UserId with
  | some i, some n, some u => some { Id := i, Name := n, UserId := u }
  | _, _, _ => none

/-- `UserValidationUtility.validate_user_request` of
`user_validation_utility.py`: a `None` model yields a fresh invalid
model; a `None` request marks model and request invalid; a non-positive
`UserId` marks the model invalid; otherwise `item` is populated from the
request and the model marked valid. -/
def UserValidationUtility.validate_user_request (model : Option UserModel) :
    UserModel :=
  match model with
  | none => { IsInvalid := true, Message := some "Invalid user model" }
  | some m =>
    match m.request with
    | none =>
        { m with
          request := some { IsInvalid := true, Message := some "Invalid user request" },
          IsInvalid := true,
          Message := some "Invalid user request" }
    | some request =>
        if request.UserId ≤ 0 then
          { m with IsInvalid := true, Message := some "Invalid user Id" }
        else
          { m with
            item := some { Id := request.Id, UserId := request.UserId,
                           Name := request.Name },
            IsInvalid := false }

/-- C9: the entity-mapping round trip `UserEntityToItem ∘ UserItemToEntity`
returns an item whose `Id`, `UserId` and `Name` equal those of the input. -/
theorem map_user_round_trip (x : UserItem) :
    ∃ y, MapUser.UserEntityToItem (MapUser.UserItemToEntity x) = some y ∧
      y.Id = x.Id ∧ y.UserId = x.UserId ∧ y.Name = x.Name :=
  ⟨_, rfl, rfl, rfl, rfl⟩

/-- C10: `validate_user_request` returns a model with `IsInvalid = false`
exactly when the input model and its request are present and
`request.UserId > 0`; in that case `item` carries `Id`, `UserId`, `Name`
copied from the request, and in every invalid case the result has
`IsInvalid = true`, a non-empty `Message`, and an `item` left exactly as
it was on the input (never populated from the request). -/
theorem validate_user_request_spec (model : Option UserModel) :
    ((UserValidationUtility.validate_user_request model).IsInvalid = false ↔
      ∃ m req, model = some m ∧ m.request = some req ∧ 0 < req.UserId) ∧
    (∀ m req, model = some m → m.request = some req → 0 < req.UserId →
      ∃ it, (UserValidationUtility.validate_user_request model).item = some it ∧
        it.Id = req.Id ∧ it.UserId = req.UserId ∧ it.Name = req.Name) ∧
    ((UserValidationUtility.validate_user_request model).IsInvalid = true →
      (∃ msg, (UserValidationUtility.validate_user_request model).Message = some msg ∧
        msg ≠ "") ∧
      (UserValidationUtility.validate_user_request model).item =
        (match model with | none => none | some m => m.item)) := by
  cases model with
  | none =>
      refine ⟨by simp [UserValidationUtility.validate_user_request], ?_, ?_⟩
      · intro m req hm
        exact absurd hm (by simp)
      · intro _
        exact ⟨⟨"Invalid user model", rfl, by decide⟩, rfl⟩
  | some m =>
      cases hr : m.request with
      | none =>
          refine ⟨?_, ?_, ?_⟩
          · simp [UserValidationUtility.validate_user_request, hr]
          · intro m1 req hm hreq
            have hm2 := Option.some.inj hm
            subst hm2
            rw [hr] at hreq
            exact absurd hreq (by simp)
          · intro _
            refine ⟨⟨"Invalid user request", ?_, by decide⟩, ?_⟩
            · simp [UserValidationUtility.validate_user_request, hr]
            · simp [UserValidationUtility.validate_user_request, hr]
      | some req =>
          by_cases hu : req.UserId ≤ 0
          · refine ⟨?_, ?_, ?_⟩
            · constructor
              · intro hfalse
                simp [UserValidationUtility.validate_user_request, hr, hu] at hfalse
              · rintro ⟨m1, req1, hm, hreq, hpos⟩
                have hm2 := Option.some.inj hm
                subst hm2
                rw [hr] at hreq
                have hr2 := Option.some.inj hreq
                subst hr2
                omega
            · intro m1 req1 hm hreq hpos
              have hm2 := Option.some.inj hm
              subst hm2
              rw [hr] at hreq
              have hr2 := Option.some.inj hreq
              subst hr2
              omega
            · intro _
              refine ⟨⟨"Invalid user Id", ?_, by decide⟩, ?_⟩
              · simp [UserValidationUtility.validate_user_request, hr, hu]
              · simp [UserValidationUtility.validate_user_request, hr, hu]
          · refine ⟨?_, ?_, ?_⟩
            · constructor
              · intro _
                exact ⟨m, req, rfl, hr, by omega⟩
              · intro _
                simp [UserValidationUtility.validate_user_request, hr, hu]
            · intro m1 req1 hm hreq hpos
              have hm2 := Option.some.inj hm
              subst hm2
              rw [hr] at hreq
              have hr2 := Option.some.inj hreq
              subst hr2
              refine ⟨{ Id := req.Id, UserId := req.UserId, Name := req.Name },
                      ?_, rfl, rfl, rfl⟩
              simp [UserValidationUtility.validate_user_request, hr, hu]
            · intro htrue
              simp [UserValidationUtility.validate_user_request, hr, hu] at htrue

theorem validate_user_request_spec_witness :
    ∃ it, (UserValidationUtility.validate_user_request
        (some { request := some { Id := 2, UserId := 5, Name := "n" } })).item =
      some it ∧ it.Id = 2 ∧ it.UserId = 5 ∧ it.Name = "n" :=
  (validate_user_request_spec
      (some { request := some { Id := 2, UserId := 5, Name := "n" } })).2.1
    _ _ rfl rfl (by decide)
